import Mathlib

/-!
Shallow embedding of the SPARC map annotation client
(`src/annotationService.ts`, class `AnnotationService`).

The class holds three fields (`#serverEndpoint`, `#currentError`,
`#currentUser`), reads and writes a browser cookie store (`js-cookie`),
and issues HTTP requests through a private helper.  We embed the service
state together with the cookie store and the clock reading in a `World`
record, and model each `async` method as a pure function from a world and
the server's response (supplied by the environment) to the method's
result, the new world, and the list of HTTP requests issued during the
call.  JSON values are modelled by the inductive `JsonValue`; the
platform functions `encodeURIComponent` and `JSON.stringify` are
implemented concretely below.
-/

namespace SparcAnnotation

/-- JSON values, used for request parameters and response bodies
(the TS code manipulates parsed JSON as untyped objects). -/
inductive JsonValue where
  | null
  | bool (b : Bool)
  | num (n : Int)
  | str (s : String)
  | arr (elems : List JsonValue)
  | obj (fields : List (String × JsonValue))

/-- JavaScript `'k' in x`: an object has a field named `k`
(false on non-objects, as for the JSON bodies tested by the service). -/
def JsonValue.hasKey (k : String) : JsonValue → Bool
  | JsonValue.obj fields => fields.any (fun kv => kv.1 == k)
  | _ => false

/-- Interface `UserData` of `annotationService.ts`. -/
structure UserData where
  name : String
  email : String
  orcid : String
  canUpdate : Bool
deriving DecidableEq

/-- Interface `ErrorResult` of `annotationService.ts`. -/
structure ErrorResult where
  error : String
deriving DecidableEq

/-- The JSON object `{error: msg}`; the shape of every error value the
service synthesises and stores in `#currentError`. -/
def errObj (msg : String) : JsonValue :=
  JsonValue.obj [("error", JsonValue.str msg)]

/-- Interface `MapFeature` of `annotationService.ts` (`geometry` is the
inline record `{type, coordinates}`). -/
structure MapFeature where
  id : String
  geometryType : String
  geometryCoordinates : List JsonValue
  properties : List (String × JsonValue)

/-- Interface `UserAnnotation` of `annotationService.ts`: the
caller-supplied part of an annotation (`evidence` holds URL strings,
which is how `URL` values serialise via their `toJSON`). -/
structure UserAnnotationData where
  resource : String
  item : String
  evidence : List String
  comment : String
  feature : Option MapFeature

/-- Interface `AnnotationRequest extends UserAnnotation` of
`annotationService.ts`: the payload POSTed by `addAnnotation`. -/
structure AnnotationRequest extends UserAnnotationData where
  created : String
  creator : UserData

/-- A `js-cookie` entry: value plus the attributes the service uses
(`{secure: true, expires: 1}`). -/
structure CookieEntry where
  value : String
  secure : Bool
  expires : Option Nat
deriving DecidableEq

/-- The browser cookie store, as an association list. -/
abbrev CookieJar := List (String × CookieEntry)

/-- Embeds `Cookies.get(name)`. -/
def cookieGet (jar : CookieJar) (name : String) : Option String :=
  (jar.lookup name).map (fun e => e.value)

/-- Embeds `Cookies.set(name, value, ...)` with the attribute record. -/
def cookieSet (jar : CookieJar) (name value : String) (secure : Bool)
    (expires : Option Nat) : CookieJar :=
  (name, ⟨value, secure, expires⟩) :: jar.filter (fun kv => kv.1 != name)

/-- Embeds `Cookies.remove(name)`. -/
def cookieRemove (jar : CookieJar) (name : String) : CookieJar :=
  jar.filter (fun kv => kv.1 != name)

/-- Characters left unescaped by JavaScript `encodeURIComponent`. -/
def isUnreservedURIChar (c : Char) : Bool :=
  ('A' ≤ c && c ≤ 'Z') || ('a' ≤ c && c ≤ 'z') || ('0' ≤ c && c ≤ '9') ||
    c == '-' || c == '_' || c == '.' || c == '!' || c == '~' || c == '*' ||
    c == '\'' || c == '(' || c == ')'

/-- Upper-case hexadecimal digit, as used in percent escapes. -/
def hexDigitChar (n : Nat) : Char :=
  if n < 10 then Char.ofNat ('0'.toNat + n) else Char.ofNat ('A'.toNat + (n - 10))

/-- One percent-escaped byte, `%XY`. -/
def percentEncodeByte (b : Nat) : List Char :=
  ['%', hexDigitChar (b / 16), hexDigitChar (b % 16)]

/-- UTF-8 encoding of a code point, as byte values. -/
def utf8Bytes (c : Char) : List Nat :=
  let n := c.toNat
  if n < 128 then [n]
  else if n < 2048 then [192 + n / 64, 128 + n % 64]
  else if n < 65536 then [224 + n / 4096, 128 + (n / 64) % 64, 128 + n % 64]
  else [240 + n / 262144, 128 + (n / 4096) % 64, 128 + (n / 64) % 64, 128 + n % 64]

/-- Encoding of a single character under `encodeURIComponent`. -/
def encodeChar (c : Char) : List Char :=
  if isUnreservedURIChar c then [c]
  else (utf8Bytes c).flatMap percentEncodeByte

/-- JavaScript `encodeURIComponent`. -/
def encodeURIComponent (s : String) : String :=
  String.mk (s.data.flatMap encodeChar)

/-- Lower-case hexadecimal digit, as used in JSON `\uXXXX` escapes. -/
def hexDigitCharLower (n : Nat) : Char :=
  if n < 10 then Char.ofNat ('0'.toNat + n) else Char.ofNat ('a'.toNat + (n - 10))

/-- JSON string escaping of one character, as done by `JSON.stringify`. -/
def jsonEscapeChar (c : Char) : List Char :=
  if c == '"' then ['\\', '"']
  else if c == '\\' then ['\\', '\\']
  else if c == '\n' then ['\\', 'n']
  else if c == '\r' then ['\\', 'r']
  else if c == '\t' then ['\\', 't']
  else if c.toNat == 8 then ['\\', 'b']
  else if c.toNat == 12 then ['\\', 'f']
  else if c.toNat < 32 then
    ['\\', 'u', '0', '0', hexDigitCharLower (c.toNat / 16), hexDigitCharLower (c.toNat % 16)]
  else [c]

/-- A JSON string literal: quoted and escaped. -/
def jsonQuote (s : String) : String :=
  String.mk ('"' :: (s.data.flatMap jsonEscapeChar ++ ['"']))

mutual

/-- JavaScript `JSON.stringify` on a JSON value. -/
def jsonStringify : JsonValue → String
  | JsonValue.null => "null"
  | JsonValue.bool b => cond b "true" "false"
  | JsonValue.num n => toString n
  | JsonValue.str s => jsonQuote s
  | JsonValue.arr es => "[" ++ jsonStringifyArr es ++ "]"
  | JsonValue.obj fs => "\x7b" ++ jsonStringifyObj fs ++ "\x7d"

/-- Comma-separated stringification of array elements. -/
def jsonStringifyArr : List JsonValue → String
  | [] => ""
  | [e] => jsonStringify e
  | e :: e' :: es => jsonStringify e ++ "," ++ jsonStringifyArr (e' :: es)

/-- Comma-separated stringification of object fields. -/
def jsonStringifyObj : List (String × JsonValue) → String
  | [] => ""
  | [(k, v)] => jsonQuote k ++ ":" ++ jsonStringify v
  | (k, v) :: f :: fs => jsonQuote k ++ ":" ++ jsonStringify v ++ "," ++ jsonStringifyObj (f :: fs)

end

/-- JSON form of a `UserData` value (field order of the interface). -/
def UserData.toJson (u : UserData) : JsonValue :=
  JsonValue.obj [("name", JsonValue.str u.name), ("email", JsonValue.str u.email),
    ("orcid", JsonValue.str u.orcid), ("canUpdate", JsonValue.bool u.canUpdate)]

/-- JSON form of a `MapFeature`. -/
def MapFeature.toJson (f : MapFeature) : JsonValue :=
  JsonValue.obj [("id", JsonValue.str f.id),
    ("geometry", JsonValue.obj [("type", JsonValue.str f.geometryType),
      ("coordinates", JsonValue.arr f.geometryCoordinates)]),
    ("properties", JsonValue.obj f.properties)]

/-- JSON form of an `AnnotationRequest`.  Key order follows
`Object.assign({creator, created}, userAnnotation)`: the two stamped
fields first, then the caller's fields; an absent optional `feature`
is omitted (as `JSON.stringify` omits `undefined`). -/
def AnnotationRequest.toJson (a : AnnotationRequest) : JsonValue :=
  JsonValue.obj
    ([("creator", UserData.toJson a.creator), ("created", JsonValue.str a.created),
      ("resource", JsonValue.str a.resource), ("item", JsonValue.str a.item),
      ("evidence", JsonValue.arr (a.evidence.map JsonValue.str)),
      ("comment", JsonValue.str a.comment)]
      ++ (match a.feature with
          | some f => [("feature", MapFeature.toJson f)]
          | none => []))

/-- HTTP method, as in `#request`'s `method` parameter. -/
inductive HttpMethod where
  | GET
  | POST
deriving DecidableEq

/-- One HTTP request issued by the service: the URL passed to `fetch`,
the method, and the serialised body for POST (`options.body`). -/
structure Request where
  url : String
  method : HttpMethod
  body : Option String

/-- The outcome of `fetch` + `response.json()` as seen by `#request`:
either a 2xx response with a parsed body, or a non-2xx status. -/
inductive FetchResult (β : Type) where
  | ok (body : β)
  | httpError (status : Nat) (statusText : String)

/-- The service instance's fields (`#serverEndpoint`, `#currentError`,
`#currentUser`) together with the browser cookie store and the value
`(new Date()).toISOString()` would produce at this instant.
`#currentError` holds the JSON error object assigned by the code
(always of the shape `errObj msg`). -/
structure World where
  serverEndpoint : String
  currentError : Option JsonValue
  currentUser : Option UserData
  cookies : CookieJar
  nowIso : String

/-- Embeds `serverEndpoint.slice(-1)`: the last character as a string. -/
def sliceLastChar (s : String) : String :=
  match s.data.getLast? with
  | some c => String.mk [c]
  | none => ""

/-- Embeds `serverEndpoint.slice(0, -1)`: drop the last character. -/
def sliceDropLast (s : String) : String :=
  String.mk s.data.dropLast

/-- The constructor's endpoint normalisation: strip one trailing slash. -/
def stripTrailingSlash (serverEndpoint : String) : String :=
  if sliceLastChar serverEndpoint = "/" then sliceDropLast serverEndpoint
  else serverEndpoint

/-- Embeds `new AnnotationService(serverEndpoint)` in a browser whose cookie
store is `jar` and whose clock reads `nowIso`: both state fields start
null. -/
def initWorld (serverEndpoint : String) (jar : CookieJar) (nowIso : String) : World :=
  { serverEndpoint := stripTrailingSlash serverEndpoint
    currentError := none
    currentUser := none
    cookies := jar
    nowIso := nowIso }

/-- Embeds the read of the API key cookie, defaulting to the empty string. -/
def apiKeyOf (jar : CookieJar) : String :=
  (cookieGet jar "user-token").getD ""

/-- Embeds the read of the session cookie, defaulting to the empty string. -/
def sessionKeyOf (jar : CookieJar) : String :=
  (cookieGet jar "annotation-key").getD ""

/-- One GET query pair, `key=encodeURIComponent(JSON.stringify(value))`. -/
def queryPair (kv : String × JsonValue) : String :=
  kv.1 ++ "=" ++ encodeURIComponent (jsonStringify kv.2)

/-- JavaScript `Array.prototype.join('&')`. -/
def joinAmp : List String → String
  | [] => ""
  | [p] => p
  | p :: p' :: ps => p ++ "&" ++ joinAmp (p' :: ps)

/-- The URL built by `#request`: `{serverEndpoint}/{endpoint}`, and for
GET additionally `?` followed by the parameter pairs in order with the
`key` and `session` pairs pushed last. -/
def requestUrl (serverEndpoint endpoint : String) (method : HttpMethod)
    (parameters : List (String × JsonValue)) (userApiKey sessionKey : String) : String :=
  match method with
  | HttpMethod.GET =>
      serverEndpoint ++ "/" ++ endpoint ++ "?" ++
        joinAmp (parameters.map queryPair ++
          ["key=" ++ encodeURIComponent userApiKey,
           "session=" ++ encodeURIComponent sessionKey])
  | HttpMethod.POST => serverEndpoint ++ "/" ++ endpoint

/-- JavaScript `Object.assign(target, source)` on association lists:
`source`'s values override `target`'s on shared keys, new keys of
`source` are appended. -/
def objAssign (target source : List (String × JsonValue)) : List (String × JsonValue) :=
  target.map (fun kv =>
    match source.lookup kv.1 with
    | some v => (kv.1, v)
    | none => kv)
  ++ source.filter (fun kv => (target.lookup kv.1).isNone)

/-- The POST body, `JSON.stringify(Object.assign({key, session}, parameters))`;
`none` for GET (the parameters travel in the URL). -/
def postBodyOf (jar : CookieJar) (method : HttpMethod)
    (parameters : List (String × JsonValue)) : Option String :=
  match method with
  | HttpMethod.GET => none
  | HttpMethod.POST =>
      some (jsonStringify (JsonValue.obj
        (objAssign [("key", JsonValue.str (apiKeyOf jar)), ("session", JsonValue.str (sessionKeyOf jar))]
          parameters)))

/-- The `Request` that `#request` hands to `fetch` for a given world,
endpoint, method and parameters. -/
def mkRequest (w : World) (endpoint : String) (method : HttpMethod)
    (parameters : List (String × JsonValue)) : Request :=
  { url := requestUrl w.serverEndpoint endpoint method parameters
      (apiKeyOf w.cookies) (sessionKeyOf w.cookies)
    method := method
    body := postBodyOf w.cookies method parameters }

/-- The private `#request` helper.  On `response.ok` it returns the
parsed body unexamined; otherwise it synthesises
`{error: "<status> <statusText>"}`, stores it in `#currentError`, and
returns it (`Sum.inr`). -/
def serviceRequest {β : Type} (w : World) (endpoint : String) (method : HttpMethod)
    (parameters : List (String × JsonValue)) (resp : FetchResult β) :
    (β ⊕ JsonValue) × World × Request :=
  match resp with
  | FetchResult.ok body => (Sum.inl body, w, mkRequest w endpoint method parameters)
  | FetchResult.httpError status statusText =>
      (Sum.inr (errObj (toString status ++ " " ++ statusText)),
       { w with currentError := some (errObj (toString status ++ " " ++ statusText)) },
       mkRequest w endpoint method parameters)

/-- Result of a public method as seen by the caller.  `nullRes` is the
runtime value `null`, which the code can return through the non-null
assertion `this.#currentError!` when `#currentError` is in fact null. -/
inductive ApiResult (α : Type) where
  | ok (value : α)
  | err (e : JsonValue)
  | nullRes

/-- Embeds `return Promise.resolve(this.#currentError!)`. -/
def ofCurrentError {α : Type} (currentError : Option JsonValue) : ApiResult α :=
  match currentError with
  | some e => ApiResult.err e
  | none => ApiResult.nullRes

/-- A 2xx body of the `authenticate` endpoint, distinguished exactly as
the code does by the presence of an `error` key; a body without one
carries the fields `session` and `data` read on the success path. -/
inductive AuthBody where
  | withError (message : String)
  | success (session : String) (data : UserData)

/-- Method `authenticate()`.  Clears both state slots, issues the
request; without an `error` key it stores the session cookie
(`secure`, one-day expiry) and the user; otherwise it removes the
cookie and returns `this.#currentError!`. -/
def authenticate (w : World) (resp : FetchResult AuthBody) :
    ApiResult UserData × World × List Request :=
  let w0 : World := { w with currentError := none, currentUser := none }
  match serviceRequest w0 "authenticate" HttpMethod.GET [] resp with
  | (Sum.inl (AuthBody.success session data), w1, req) =>
      (ApiResult.ok data,
       { w1 with cookies := cookieSet w1.cookies "annotation-key" session true (some 1)
                 currentUser := some data },
       [req])
  | (Sum.inl (AuthBody.withError _), w1, req) =>
      (ofCurrentError w1.currentError,
       { w1 with cookies := cookieRemove w1.cookies "annotation-key" }, [req])
  | (Sum.inr _, w1, req) =>
      (ofCurrentError w1.currentError,
       { w1 with cookies := cookieRemove w1.cookies "annotation-key" }, [req])

/-- Method `unauthenticate()`.  Clears both state slots; a body with a
`success` key is returned as-is, anything else yields
`this.#currentError!`. -/
def unauthenticate (w : World) (resp : FetchResult JsonValue) :
    ApiResult JsonValue × World × List Request :=
  let w0 : World := { w with currentError := none, currentUser := none }
  match serviceRequest w0 "unauthenticate" HttpMethod.GET [] resp with
  | (Sum.inl body, w1, req) =>
      ((if JsonValue.hasKey "success" body then ApiResult.ok body
        else ofCurrentError w1.currentError), w1, [req])
  | (Sum.inr _, w1, req) => (ofCurrentError w1.currentError, w1, [req])

/-- Method `annotatedItemIds(resourceId)`: GET `items/` with the
`resource` parameter; a body without an `error` key is returned as-is,
anything else yields `this.#currentError!`. -/
def annotatedItemIds (w : World) (resourceId : String) (resp : FetchResult JsonValue) :
    ApiResult JsonValue × World × List Request :=
  match serviceRequest w "items/" HttpMethod.GET [("resource", JsonValue.str resourceId)] resp with
  | (Sum.inl body, w1, req) =>
      ((if JsonValue.hasKey "error" body then ofCurrentError w1.currentError
        else ApiResult.ok body), w1, [req])
  | (Sum.inr _, w1, req) => (ofCurrentError w1.currentError, w1, [req])

/-- Method `drawnFeatures(resourceId)`: GET `features/`. -/
def drawnFeatures (w : World) (resourceId : String) (resp : FetchResult JsonValue) :
    ApiResult JsonValue × World × List Request :=
  match serviceRequest w "features/" HttpMethod.GET [("resource", JsonValue.str resourceId)] resp with
  | (Sum.inl body, w1, req) =>
      ((if JsonValue.hasKey "error" body then ofCurrentError w1.currentError
        else ApiResult.ok body), w1, [req])
  | (Sum.inr _, w1, req) => (ofCurrentError w1.currentError, w1, [req])

/-- Method `itemAnnotations(resourceId, itemId)`: GET `annotations/`. -/
def itemAnnotations (w : World) (resourceId itemId : String) (resp : FetchResult JsonValue) :
    ApiResult JsonValue × World × List Request :=
  match serviceRequest w "annotations/" HttpMethod.GET
      [("resource", JsonValue.str resourceId), ("item", JsonValue.str itemId)] resp with
  | (Sum.inl body, w1, req) =>
      ((if JsonValue.hasKey "error" body then ofCurrentError w1.currentError
        else ApiResult.ok body), w1, [req])
  | (Sum.inr _, w1, req) => (ofCurrentError w1.currentError, w1, [req])

/-- Method `annotation(annotationId)`: GET `annotation/` with the
identifier (a URL, serialising to its href string) as parameter. -/
def annotationById (w : World) (annotationId : String) (resp : FetchResult JsonValue) :
    ApiResult JsonValue × World × List Request :=
  match serviceRequest w "annotation/" HttpMethod.GET
      [("annotation", JsonValue.str annotationId)] resp with
  | (Sum.inl body, w1, req) =>
      ((if JsonValue.hasKey "error" body then ofCurrentError w1.currentError
        else ApiResult.ok body), w1, [req])
  | (Sum.inr _, w1, req) => (ofCurrentError w1.currentError, w1, [req])

/-- Method `addAnnotation(userAnnotation)`.  If `this.#currentUser &&
this.#currentUser.canUpdate`, the payload is stamped with `creator` and
`created` (the caller-supplied interface has neither key, so
`Object.assign({creator, created}, userAnnotation)` extends it) and
POSTed as the `data` parameter; an error response is stored in
`#currentError`.  Otherwise `#currentError` is set to
`{error: 'user cannot add annotation'}` with no request issued; either
way the error path returns `this.#currentError!`. -/
def addAnnotationOp (w : World) (ua : UserAnnotationData) (resp : FetchResult JsonValue) :
    ApiResult JsonValue × World × List Request :=
  match w.currentUser with
  | some u =>
      if u.canUpdate then
        match serviceRequest w "annotation/" HttpMethod.POST
            [("data", AnnotationRequest.toJson ⟨ua, w.nowIso, u⟩)] resp with
        | (Sum.inl body, w1, req) =>
            if JsonValue.hasKey "error" body then
              (ofCurrentError (some body), { w1 with currentError := some body }, [req])
            else (ApiResult.ok body, w1, [req])
        | (Sum.inr e, w1, req) =>
            (ofCurrentError (some e), { w1 with currentError := some e }, [req])
      else
        (ofCurrentError (some (errObj "user cannot add annotation")),
         { w with currentError := some (errObj "user cannot add annotation") }, [])
  | none =>
      (ofCurrentError (some (errObj "user cannot add annotation")),
       { w with currentError := some (errObj "user cannot add annotation") }, [])

/-- One public-method invocation, carrying the server's response. -/
inductive Op where
  | auth (resp : FetchResult AuthBody)
  | unauth (resp : FetchResult JsonValue)
  | items (resourceId : String) (resp : FetchResult JsonValue)
  | features (resourceId : String) (resp : FetchResult JsonValue)
  | itemAnns (resourceId itemId : String) (resp : FetchResult JsonValue)
  | annGet (annotationId : String) (resp : FetchResult JsonValue)
  | addAnn (ua : UserAnnotationData) (resp : FetchResult JsonValue)

/-- The world after running one operation. -/
def step (w : World) (op : Op) : World :=
  match op with
  | Op.auth resp => (authenticate w resp).2.1
  | Op.unauth resp => (unauthenticate w resp).2.1
  | Op.items rid resp => (annotatedItemIds w rid resp).2.1
  | Op.features rid resp => (drawnFeatures w rid resp).2.1
  | Op.itemAnns rid iid resp => (itemAnnotations w rid iid resp).2.1
  | Op.annGet aid resp => (annotationById w aid resp).2.1
  | Op.addAnn ua resp => (addAnnotationOp w ua resp).2.1

/-- Whether an operation is an `authenticate` call. -/
def isAuthOp : Op → Bool
  | Op.auth _ => true
  | _ => false

/-- The world after running a sequence of operations. -/
def runOps (w : World) (ops : List Op) : World :=
  ops.foldl step w

/-! ### Helper lemmas -/

theorem charOfNat_toNat_valid (n : Nat) (h : n.isValidChar) : (Char.ofNat n).toNat = n := by
  simp [Char.ofNat, h, Char.toNat, Char.ofNatAux, UInt32.toNat, UInt32.ofNat', BitVec.toNat_ofNatLt]

theorem charOfNat_toNat_invalid (n : Nat) (h : ¬ n.isValidChar) : (Char.ofNat n).toNat = 0 := by
  simp [Char.ofNat, h, Char.toNat, UInt32.toNat]

theorem hexDigitChar_ne_amp (n : Nat) : hexDigitChar n ≠ '&' := by
  intro h
  have h38 : ('&').toNat = 38 := rfl
  unfold hexDigitChar at h
  have h48 : ('0').toNat = 48 := rfl
  have h65 : ('A').toNat = 65 := rfl
  by_cases hn : n < 10
  · rw [if_pos hn] at h
    have hv : ('0'.toNat + n).isValidChar := Or.inl (by omega)
    have := congrArg Char.toNat h
    rw [charOfNat_toNat_valid _ hv, h38] at this
    omega
  · rw [if_neg hn] at h
    have := congrArg Char.toNat h
    rw [h38] at this
    by_cases hv : ('A'.toNat + (n - 10)).isValidChar
    · rw [charOfNat_toNat_valid _ hv] at this
      omega
    · rw [charOfNat_toNat_invalid _ hv] at this
      omega

theorem count_amp_percentEncodeByte (b : Nat) : (percentEncodeByte b).count '&' = 0 := by
  simp [percentEncodeByte, List.count_cons, hexDigitChar_ne_amp]

theorem count_amp_encodeChar (c : Char) : (encodeChar c).count '&' = 0 := by
  unfold encodeChar
  by_cases h : isUnreservedURIChar c
  · rw [if_pos h]
    have hc : c ≠ '&' := by
      intro e
      subst e
      simp [isUnreservedURIChar] at h
    simp [List.count_cons, hc]
  · rw [if_neg h]
    have : ∀ bs : List Nat, (bs.flatMap percentEncodeByte).count '&' = 0 := by
      intro bs
      induction bs with
      | nil => rfl
      | cons b t ih => simp [List.flatMap_cons, List.count_append, ih, count_amp_percentEncodeByte]
    exact this _

theorem count_amp_encodeURIComponent (s : String) :
    (encodeURIComponent s).data.count '&' = 0 := by
  show (s.data.flatMap encodeChar).count '&' = 0
  induction s.data with
  | nil => rfl
  | cons c t ih => simp [List.flatMap_cons, List.count_append, ih, count_amp_encodeChar]

theorem count_amp_joinAmp :
    ∀ l : List String, (∀ p ∈ l, p.data.count '&' = 0) →
      (joinAmp l).data.count '&' = l.length - 1 := by
  intro l
  induction l with
  | nil => intro _; rfl
  | cons p t ih =>
    intro h
    cases t with
    | nil => simpa using h p (by simp)
    | cons p' ps =>
      have hp := h p (by simp)
      have ih' := ih (fun q hq => h q (by simp [hq]))
      show ((p ++ "&" ++ joinAmp (p' :: ps)).data).count '&' = _
      rw [String.data_append, String.data_append, List.count_append, List.count_append, hp, ih']
      have hamp : ("&".data).count '&' = 1 := rfl
      rw [hamp]
      simp [List.length_cons]
      omega

theorem count_amp_queryPair (kv : String × JsonValue) (h : kv.1.data.count '&' = 0) :
    (queryPair kv).data.count '&' = 0 := by
  unfold queryPair
  rw [String.data_append, String.data_append, List.count_append, List.count_append, h,
    count_amp_encodeURIComponent]
  rfl

theorem lookup_filter_ne (jar : CookieJar) (n : String) :
    (jar.filter (fun kv => kv.1 != n)).lookup n = none := by
  induction jar with
  | nil => rfl
  | cons kv t ih =>
    by_cases h : kv.1 = n
    · simp [List.filter_cons, h, ih]
    · have hb : (n == kv.1) = false := beq_eq_false_iff_ne.mpr (Ne.symm h)
      simp [List.filter_cons, h, List.lookup, hb, ih]

theorem lookup_cookieSet_self (jar : CookieJar) (n v : String) (sec : Bool) (exp : Option Nat) :
    (cookieSet jar n v sec exp).lookup n = some ⟨v, sec, exp⟩ := by
  simp [cookieSet, List.lookup]

theorem strip_append_slash (s : String) : stripTrailingSlash (s ++ "/") = s := by
  have hdata : (s ++ "/").data = s.data ++ ['/'] := String.data_append s "/"
  have h1 : sliceLastChar (s ++ "/") = "/" := by
    unfold sliceLastChar
    rw [hdata, List.getLast?_concat]
  have h2 : sliceDropLast (s ++ "/") = s := by
    unfold sliceDropLast
    rw [hdata, List.dropLast_concat]
  unfold stripTrailingSlash
  rw [h1, h2]
  simp

theorem strip_no_slash (s : String) (h : s.data.getLast? ≠ some '/') :
    stripTrailingSlash s = s := by
  unfold stripTrailingSlash
  have hne : sliceLastChar s ≠ "/" := by
    unfold sliceLastChar
    cases hl : s.data.getLast? with
    | none => decide
    | some c =>
      intro hc
      apply h
      rw [hl]
      have hdc := congrArg String.data hc
      simp at hdc
      rw [hdc]
  simp [hne]

/-! ### Concrete fixtures used by witnesses and counterexamples -/

/-- A freshly constructed service on an empty cookie store. -/
def sampleWorld : World :=
  initWorld "https://example.org" [] "2026-01-01T00:00:00.000Z"

/-- A user with update permission. -/
def sampleUser : UserData := ⟨"A", "a@b", "0000", true⟩

/-- A user without update permission. -/
def sampleUserNoUpdate : UserData := ⟨"B", "b@b", "0001", false⟩

/-- A caller-supplied annotation payload. -/
def sampleUa : UserAnnotationData := ⟨"r1", "i1", [], "note", none⟩

/-- A world whose cookie store already holds a session credential. -/
def cookieWorld : World :=
  { sampleWorld with cookies := [("annotation-key", ⟨"tok", true, some 1⟩)] }

/-- A world with a logged-in, update-capable user. -/
def authWorld : World := { sampleWorld with currentUser := some sampleUser }

/-! ### Claim theorems -/

/-- C1: whenever `currentUser` is null or its `canUpdate` is false,
`addAnnotation` resolves to the ErrorResult
`{error: "user cannot add annotation"}`, records it in `currentError`,
and issues no network request. -/
theorem addAnn_unauthorized_error_no_request (w : World) (ua : UserAnnotationData)
    (resp : FetchResult JsonValue)
    (h : ∀ u, w.currentUser = some u → u.canUpdate = false) :
    (addAnnotationOp w ua resp).1 = ApiResult.err (errObj "user cannot add annotation")
    ∧ (addAnnotationOp w ua resp).2.2 = []
    ∧ (addAnnotationOp w ua resp).2.1.currentError = some (errObj "user cannot add annotation") := by
  cases hu : w.currentUser with
  | none => simp [addAnnotationOp, hu, ofCurrentError]
  | some u =>
    have hc := h u hu
    simp [addAnnotationOp, hu, hc, ofCurrentError]

/-- Witness for C1: a fresh service (null `currentUser`) rejects an add
with the fixed error and an empty request trace. -/
theorem addAnn_unauthorized_error_no_request_witness :
    (∀ u, sampleWorld.currentUser = some u → u.canUpdate = false)
    ∧ (addAnnotationOp sampleWorld sampleUa (FetchResult.ok JsonValue.null)).1
        = ApiResult.err (errObj "user cannot add annotation")
    ∧ (addAnnotationOp sampleWorld sampleUa (FetchResult.ok JsonValue.null)).2.2 = [] := by
  have h : ∀ u, sampleWorld.currentUser = some u → u.canUpdate = false := by
    intro u hu
    exact absurd hu (by simp [sampleWorld, initWorld])
  exact ⟨h, (addAnn_unauthorized_error_no_request sampleWorld sampleUa _ h).1,
    (addAnn_unauthorized_error_no_request sampleWorld sampleUa _ h).2.1⟩

/-- C2 counterexample: the claimed invariant fails on the code.  First,
a disallowed `addAnnotation` on a fresh service sets `currentError`
non-null although `authenticate` has never been called.  Second, after a
completed successful `authenticate`, a failing read leaves `currentUser`
and `currentError` both non-null. -/
theorem authState_invariant_counterexample :
    ((runOps sampleWorld [Op.addAnn sampleUa (FetchResult.ok JsonValue.null)]).currentError
        = some (errObj "user cannot add annotation")
      ∧ isAuthOp (Op.addAnn sampleUa (FetchResult.ok JsonValue.null)) = false)
    ∧ ((runOps sampleWorld
          [Op.auth (FetchResult.ok (AuthBody.success "abc" sampleUser)),
           Op.items "r1" (FetchResult.httpError 500 "Internal Server Error")]).currentUser
        = some sampleUser
      ∧ (runOps sampleWorld
          [Op.auth (FetchResult.ok (AuthBody.success "abc" sampleUser)),
           Op.items "r1" (FetchResult.httpError 500 "Internal Server Error")]).currentError
        = some (errObj "500 Internal Server Error")) :=
  ⟨⟨rfl, rfl⟩, ⟨rfl, rfl⟩⟩

/-- C2 amended: immediately after each completed `authenticate` call,
`currentUser` and `currentError` are not both non-null; and in a freshly
constructed service, before any operation runs, both are null. -/
theorem authState_invariant_amended :
    (∀ ep jar now, (initWorld ep jar now).currentUser = none
      ∧ (initWorld ep jar now).currentError = none)
    ∧ (∀ (w : World) (resp : FetchResult AuthBody),
        (authenticate w resp).2.1.currentUser = none
        ∨ (authenticate w resp).2.1.currentError = none) := by
  refine ⟨fun ep jar now => ⟨rfl, rfl⟩, fun w resp => ?_⟩
  cases resp with
  | ok body =>
    cases body with
    | withError m => exact Or.inl rfl
    | success s d => exact Or.inr rfl
  | httpError st sx => exact Or.inl rfl

/-- C3 failing input evaluated: `authenticate` against a 2xx response
whose body carries an error key resolves to the runtime value `null`
(not the error), leaves `currentError` null instead of recording the
error, and leaves `currentUser` null. -/
theorem authenticate_appError_resolves_null :
    (authenticate sampleWorld (FetchResult.ok (AuthBody.withError "invalid key"))).1
      = (ApiResult.nullRes : ApiResult UserData)
    ∧ (authenticate sampleWorld
        (FetchResult.ok (AuthBody.withError "invalid key"))).2.1.currentError = none
    ∧ (authenticate sampleWorld
        (FetchResult.ok (AuthBody.withError "invalid key"))).2.1.currentUser = none :=
  ⟨rfl, rfl, rfl⟩

/-- C4 failing input evaluated: on a 2xx response whose body carries an
error key, `annotatedItemIds` resolves to `null` — neither a success
value nor an ErrorResult — with the error never recorded in
`currentError`; `unauthenticate` behaves the same on a body without a
`success` key. -/
theorem readMethods_appError_dropped :
    (annotatedItemIds sampleWorld "r1" (FetchResult.ok (errObj "bad resource"))).1
      = (ApiResult.nullRes : ApiResult JsonValue)
    ∧ (annotatedItemIds sampleWorld "r1"
        (FetchResult.ok (errObj "bad resource"))).2.1.currentError = none
    ∧ (unauthenticate sampleWorld (FetchResult.ok (errObj "cannot"))).1
      = (ApiResult.nullRes : ApiResult JsonValue) :=
  ⟨rfl, rfl, rfl⟩

/-- C5 counterexample: a successful `unauthenticate` call does not
remove the stored session credential — the `annotation-key` cookie is
still present afterwards. -/
theorem unauth_keeps_cookie_counterexample :
    (unauthenticate cookieWorld
        (FetchResult.ok (JsonValue.obj [("success", JsonValue.str "unauthenticated")]))).1
      = ApiResult.ok (JsonValue.obj [("success", JsonValue.str "unauthenticated")])
    ∧ cookieGet (unauthenticate cookieWorld
        (FetchResult.ok (JsonValue.obj [("success", JsonValue.str "unauthenticated")]))).2.1.cookies
        "annotation-key" = some "tok" :=
  ⟨rfl, rfl⟩

/-- C5 amended: the `annotation-key` cookie is set (with value the
returned session, `secure`, one-day expiry) exactly on successful
`authenticate` and removed on every failed `authenticate`;
`unauthenticate` and every other operation leave the cookie store
unchanged. -/
theorem sessionCookie_lifecycle_amended :
    (∀ (w : World) (s : String) (d : UserData),
      ((authenticate w (FetchResult.ok (AuthBody.success s d))).2.1.cookies).lookup
        "annotation-key" = some ⟨s, true, some 1⟩)
    ∧ (∀ (w : World) (m : String),
      ((authenticate w (FetchResult.ok (AuthBody.withError m))).2.1.cookies).lookup
        "annotation-key" = none)
    ∧ (∀ (w : World) (st : Nat) (sx : String),
      ((authenticate w (FetchResult.httpError st sx)).2.1.cookies).lookup
        "annotation-key" = none)
    ∧ (∀ w resp, (unauthenticate w resp).2.1.cookies = w.cookies)
    ∧ (∀ w rid resp, (annotatedItemIds w rid resp).2.1.cookies = w.cookies)
    ∧ (∀ w rid resp, (drawnFeatures w rid resp).2.1.cookies = w.cookies)
    ∧ (∀ w rid iid resp, (itemAnnotations w rid iid resp).2.1.cookies = w.cookies)
    ∧ (∀ w aid resp, (annotationById w aid resp).2.1.cookies = w.cookies)
    ∧ (∀ w ua resp, (addAnnotationOp w ua resp).2.1.cookies = w.cookies) := by
  refine ⟨?_, ?_, ?_, ?_, ?_, ?_, ?_, ?_, ?_⟩
  · intro w s d
    exact lookup_cookieSet_self _ "annotation-key" s true (some 1)
  · intro w m
    exact lookup_filter_ne _ "annotation-key"
  · intro w st sx
    exact lookup_filter_ne _ "annotation-key"
  · intro w resp
    cases resp <;> rfl
  · intro w rid resp
    cases resp <;> rfl
  · intro w rid resp
    cases resp <;> rfl
  · intro w rid iid resp
    cases resp <;> rfl
  · intro w aid resp
    cases resp <;> rfl
  · intro w ua resp
    cases hu : w.currentUser with
    | none => simp [addAnnotationOp, hu]
    | some u =>
      by_cases hc : u.canUpdate
      · cases resp with
        | ok body =>
          simp only [addAnnotationOp, hu, hc, if_true, serviceRequest]
          split <;> rfl
        | httpError st sx =>
          simp [addAnnotationOp, hu, hc, serviceRequest]
      · simp [addAnnotationOp, hu, hc]

/-- C6: a permitted `addAnnotation` call issues exactly one POST to the
`annotation/` endpoint whose `data` parameter is the input annotation
stamped with `creator` equal to the current user and `created` equal to
the clock's ISO timestamp; the serialised body merges the `key` and
`session` credentials with that payload. -/
theorem addAnn_stamps_creator_created (w : World) (ua : UserAnnotationData)
    (resp : FetchResult JsonValue) (u : UserData)
    (h1 : w.currentUser = some u) (h2 : u.canUpdate = true) :
    (addAnnotationOp w ua resp).2.2
      = [mkRequest w "annotation/" HttpMethod.POST
          [("data", AnnotationRequest.toJson ⟨ua, w.nowIso, u⟩)]]
    ∧ (mkRequest w "annotation/" HttpMethod.POST
        [("data", AnnotationRequest.toJson ⟨ua, w.nowIso, u⟩)]).method = HttpMethod.POST
    ∧ (mkRequest w "annotation/" HttpMethod.POST
        [("data", AnnotationRequest.toJson ⟨ua, w.nowIso, u⟩)]).body
      = some (jsonStringify (JsonValue.obj
          [("key", JsonValue.str (apiKeyOf w.cookies)),
           ("session", JsonValue.str (sessionKeyOf w.cookies)),
           ("data", AnnotationRequest.toJson ⟨ua, w.nowIso, u⟩)]))
    ∧ AnnotationRequest.creator ⟨ua, w.nowIso, u⟩ = u
    ∧ AnnotationRequest.created ⟨ua, w.nowIso, u⟩ = w.nowIso
    ∧ AnnotationRequest.toUserAnnotationData ⟨ua, w.nowIso, u⟩ = ua := by
  refine ⟨?_, rfl, rfl, rfl, rfl, rfl⟩
  cases resp with
  | ok body =>
    simp only [addAnnotationOp, h1, h2, if_true, serviceRequest]
    split <;> rfl
  | httpError st sx => simp [addAnnotationOp, h1, h2, serviceRequest]

/-- Witness for C6 at a logged-in, update-capable user. -/
theorem addAnn_stamps_creator_created_witness :
    authWorld.currentUser = some sampleUser
    ∧ sampleUser.canUpdate = true
    ∧ (addAnnotationOp authWorld sampleUa (FetchResult.ok JsonValue.null)).2.2
      = [mkRequest authWorld "annotation/" HttpMethod.POST
          [("data", AnnotationRequest.toJson ⟨sampleUa, authWorld.nowIso, sampleUser⟩)]] :=
  ⟨rfl, rfl,
    (addAnn_stamps_creator_created authWorld sampleUa (FetchResult.ok JsonValue.null)
      sampleUser rfl rfl).1⟩

/-- C7: for a base URL not ending in a slash, constructing the service
with the URL and with the URL plus a trailing slash yields the same
normalised endpoint (the slash is stripped exactly once), the same
constructed service state, and identical request URLs for every
endpoint, method and parameter list. -/
theorem trailingSlash_url_equiv (s : String) (h : s.data.getLast? ≠ some '/') :
    stripTrailingSlash (s ++ "/") = s
    ∧ stripTrailingSlash s = s
    ∧ (∀ jar now, initWorld (s ++ "/") jar now = initWorld s jar now)
    ∧ (∀ ep m ps k sess,
        requestUrl (stripTrailingSlash (s ++ "/")) ep m ps k sess
          = requestUrl (stripTrailingSlash s) ep m ps k sess) := by
  have h1 := strip_append_slash s
  have h2 := strip_no_slash s h
  refine ⟨h1, h2, ?_, ?_⟩
  · intro jar now
    simp [initWorld, h1, h2]
  · intro ep m ps k sess
    rw [h1, h2]

/-- Witness for C7 at the concrete base URL of the spec's example. -/
theorem trailingSlash_url_equiv_witness :
    ("https://x/y".data.getLast? ≠ some '/')
    ∧ stripTrailingSlash ("https://x/y" ++ "/") = "https://x/y" := by
  have h : "https://x/y".data.getLast? ≠ some '/' := by decide
  exact ⟨h, (trailingSlash_url_equiv "https://x/y" h).1⟩

/-- C8: a GET request URL is the endpoint base and path followed by `?`
and the parameter pairs (each `key=percent-encoded(JSON-serialised
value)`) joined by `&` in parameter order, with the `key` and `session`
pairs appended last; when no parameter key contains `&`, the query holds
exactly one `&`-separated pair per parameter plus the two credential
pairs; and the read methods build exactly this request with the
credentials taken from the cookie store. -/
theorem getRequest_query_shape (base ep : String) (ps : List (String × JsonValue))
    (k sess : String) (hkeys : ∀ kv ∈ ps, kv.1.data.count '&' = 0) :
    requestUrl base ep HttpMethod.GET ps k sess
      = base ++ "/" ++ ep ++ "?" ++
        joinAmp (ps.map queryPair ++
          ["key=" ++ encodeURIComponent k, "session=" ++ encodeURIComponent sess])
    ∧ ((joinAmp (ps.map queryPair ++
          ["key=" ++ encodeURIComponent k, "session=" ++ encodeURIComponent sess])).data).count '&'
        = ps.length + 1
    ∧ (∀ (w : World) (rid : String) (resp : FetchResult JsonValue),
        (annotatedItemIds w rid resp).2.2
          = [mkRequest w "items/" HttpMethod.GET [("resource", JsonValue.str rid)]]) := by
  refine ⟨rfl, ?_, ?_⟩
  · have hall : ∀ p ∈ ps.map queryPair ++
        ["key=" ++ encodeURIComponent k, "session=" ++ encodeURIComponent sess],
        p.data.count '&' = 0 := by
      intro p hp
      rcases List.mem_append.mp hp with hmap | hlit
      · obtain ⟨kv, hkv, rfl⟩ := List.mem_map.mp hmap
        exact count_amp_queryPair kv (hkeys kv hkv)
      · simp only [List.mem_cons, List.not_mem_nil, or_false] at hlit
        rcases hlit with rfl | rfl
        · rw [String.data_append, List.count_append, count_amp_encodeURIComponent]
          rfl
        · rw [String.data_append, List.count_append, count_amp_encodeURIComponent]
          rfl
    rw [count_amp_joinAmp _ hall]
    simp
  · intro w rid resp
    cases resp <;> rfl

/-- Witness for C8 at the `items/` endpoint's parameter list. -/
theorem getRequest_query_shape_witness :
    (∀ kv ∈ [("resource", JsonValue.str "r1")], kv.1.data.count '&' = 0)
    ∧ ((joinAmp ([("resource", JsonValue.str "r1")].map queryPair ++
        ["key=" ++ encodeURIComponent "K", "session=" ++ encodeURIComponent "S"])).data).count '&'
      = 2 := by
  have hk : ∀ kv ∈ [("resource", JsonValue.str "r1")], kv.1.data.count '&' = 0 := by
    intro kv hkv
    simp only [List.mem_singleton] at hkv
    subst hkv
    decide
  exact ⟨hk, (getRequest_query_shape "https://e" "items/"
    [("resource", JsonValue.str "r1")] "K" "S" hk).2.1⟩

/-- C9: a read operation that receives a 2xx response whose body has no
error key leaves both `currentUser` and `currentError` exactly as they
were before the call. -/
theorem reads_preserve_state_on_success (w : World) (body : JsonValue)
    (_h : JsonValue.hasKey "error" body = false) (rid iid aid : String) :
    ((annotatedItemIds w rid (FetchResult.ok body)).2.1.currentUser = w.currentUser
      ∧ (annotatedItemIds w rid (FetchResult.ok body)).2.1.currentError = w.currentError)
    ∧ ((drawnFeatures w rid (FetchResult.ok body)).2.1.currentUser = w.currentUser
      ∧ (drawnFeatures w rid (FetchResult.ok body)).2.1.currentError = w.currentError)
    ∧ ((itemAnnotations w rid iid (FetchResult.ok body)).2.1.currentUser = w.currentUser
      ∧ (itemAnnotations w rid iid (FetchResult.ok body)).2.1.currentError = w.currentError)
    ∧ ((annotationById w aid (FetchResult.ok body)).2.1.currentUser = w.currentUser
      ∧ (annotationById w aid (FetchResult.ok body)).2.1.currentError = w.currentError) :=
  ⟨⟨rfl, rfl⟩, ⟨rfl, rfl⟩, ⟨rfl, rfl⟩, ⟨rfl, rfl⟩⟩

/-- A world carrying a stale error from an earlier failed call. -/
def staleErrWorld : World :=
  { sampleWorld with currentError := some (errObj "499 prior") }

/-- Witness for C9: a successful read on a world with a leftover
non-null `currentError` preserves it. -/
theorem reads_preserve_state_on_success_witness :
    JsonValue.hasKey "error" (JsonValue.arr []) = false
    ∧ (annotatedItemIds staleErrWorld "r1" (FetchResult.ok (JsonValue.arr []))).2.1.currentError
      = staleErrWorld.currentError :=
  ⟨rfl, (reads_preserve_state_on_success staleErrWorld (JsonValue.arr []) rfl
    "r1" "i1" "a1").1.2⟩

/-- C10: `currentUser` is written only by `authenticate` and
`unauthenticate` — every read and `addAnnotation` leave it unchanged in
every state, `unauthenticate` always makes it null, and after any single
operation it is null, unchanged, or set by a successful `authenticate`
to the returned user. -/
theorem currentUser_only_auth_assigns :
    (∀ w rid resp, (annotatedItemIds w rid resp).2.1.currentUser = w.currentUser)
    ∧ (∀ w rid resp, (drawnFeatures w rid resp).2.1.currentUser = w.currentUser)
    ∧ (∀ w rid iid resp, (itemAnnotations w rid iid resp).2.1.currentUser = w.currentUser)
    ∧ (∀ w aid resp, (annotationById w aid resp).2.1.currentUser = w.currentUser)
    ∧ (∀ w ua resp, (addAnnotationOp w ua resp).2.1.currentUser = w.currentUser)
    ∧ (∀ w resp, (unauthenticate w resp).2.1.currentUser = none)
    ∧ (∀ (w : World) (op : Op),
        (step w op).currentUser = none
        ∨ (step w op).currentUser = w.currentUser
        ∨ ∃ s d, op = Op.auth (FetchResult.ok (AuthBody.success s d))
            ∧ (step w op).currentUser = some d) := by
  have hadd : ∀ w ua resp, (addAnnotationOp w ua resp).2.1.currentUser = w.currentUser := by
    intro w ua resp
    cases hu : w.currentUser with
    | none => simp [addAnnotationOp, hu]
    | some u =>
      by_cases hc : u.canUpdate
      · cases resp with
        | ok body =>
          simp only [addAnnotationOp, hu, hc, if_true, serviceRequest]
          split <;> simp [hu]
        | httpError st sx => simp [addAnnotationOp, hu, hc, serviceRequest]
      · simp [addAnnotationOp, hu, hc]
  refine ⟨fun w rid resp => by cases resp <;> rfl,
    fun w rid resp => by cases resp <;> rfl,
    fun w rid iid resp => by cases resp <;> rfl,
    fun w aid resp => by cases resp <;> rfl,
    hadd,
    fun w resp => by cases resp <;> rfl,
    ?_⟩
  intro w op
  cases op with
  | auth resp =>
    cases resp with
    | ok body =>
      cases body with
      | withError m => exact Or.inl rfl
      | success s d => exact Or.inr (Or.inr ⟨s, d, rfl, rfl⟩)
    | httpError st sx => exact Or.inl rfl
  | unauth resp => exact Or.inl (by cases resp <;> rfl)
  | items rid resp => exact Or.inr (Or.inl (by cases resp <;> rfl))
  | features rid resp => exact Or.inr (Or.inl (by cases resp <;> rfl))
  | itemAnns rid iid resp => exact Or.inr (Or.inl (by cases resp <;> rfl))
  | annGet aid resp => exact Or.inr (Or.inl (by cases resp <;> rfl))
  | addAnn ua resp => exact Or.inr (Or.inl (hadd w ua resp))

end SparcAnnotation
